import Mathlib

/-!
Verification of the struct encoder/decoder in `src/common.ts`
(`ObjectToStructConverter.convert` / `encodeValue_`, `isPlainObject`,
`structToObj` / `decodeValue`) against its natural-language specification.

The embedding models JavaScript runtime values as the inductive type `JSVal`.
Object identity (a reference in JS, used by the `seenObjects` `Set` and by the
`WeakMap` classifier cache) is modelled as an explicit `id : Nat` carried by
every object node; a cyclic object such as `o.self = o` is represented by a
finite tree in which the identity recurs (`obj 0 [("self", obj 0 ...)]`), which
is faithful because the source consults identity membership in `seenObjects`
before ever descending into a repeated object.  The mutable `seenObjects` set
is threaded explicitly: every encoding function returns the set state alongside
its result, on the error path as well, so that the exact point at which
`seenObjects.delete` runs (or is skipped by a thrown error) is visible.
-/

/-- The prototype of a JavaScript composite value, as inspected by
`isPlainObject` (lines 182-215 of `src/common.ts`):
* `nullProto` — `Object.getPrototypeOf` gives `null`/`undefined`
  (`Object.create(null)`);
* `objectProto` — the prototype is exactly `Object.prototype`;
* `custom` — any other prototype, described by the four boolean facts the
  classifier tests: whether the prototype has an own `constructor` property,
  and whether that constructor is a `function`, is `instanceof` itself, and
  stringifies to `"[object Function]"`. -/
inductive Proto where
  | nullProto
  | objectProto
  | custom (hasCtor : Bool) (ctorIsFunc : Bool) (ctorInstSelf : Bool) (ctorToStrFunc : Bool)
deriving DecidableEq

/-- A JavaScript runtime value, restricted to the shapes `encodeValue_`
distinguishes.  `obj` covers every `typeof value === "object"` composite that
is neither an `Array` nor a `Buffer`: `own` are its own enumerable properties
(in insertion order), `inh` its inherited enumerable properties (what a
`for...in` loop yields beyond the own keys), and `strForm` the result of
`String(value)`.  `fn`, `sym` and `bigint` are values whose `typeof` is
`"function"`, `"symbol"` and `"bigint"` respectively — they match no case of
either `switch` in `encodeValue_`. -/
inductive JSVal where
  | undef
  | null
  | bool (b : Bool)
  | num (n : Int)
  | str (s : String)
  | buffer (bytes : List Nat)
  | arr (elems : List JSVal)
  | obj (id : Nat) (proto : Proto) (own : List (String × JSVal))
        (inh : List (String × JSVal)) (strForm : String)
  | fn (strForm : String)
  | sym
  | bigint (n : Int)

/-- The wire-adjacent value produced by the encoder and consumed by the
decoder.  It is a JavaScript record, not a closed sum: each of the seven
payload properties may be present or absent, and `kind` is the discriminator
property that `decodeValue` switches on (`value.kind`).  The source encoder
never sets `kind`.  `listValue` stands for `listValue.values` and
`structValue` for `structValue.fields` (the singleton wrappers are kept
implicit); a `none` element of a list or field models the JavaScript value
`undefined` sitting in that slot. -/
inductive TV where
  | mk (kind : Option String)
       (nullValue : Option Int)
       (boolValue : Option Bool)
       (numberValue : Option Int)
       (stringValue : Option String)
       (blobValue : Option (List Nat))
       (listValue : Option (List (Option TV)))
       (structValue : Option (List (String × Option TV)))

def TV.kind : TV → Option String
  | .mk k _ _ _ _ _ _ _ => k

def TV.nullValue : TV → Option Int
  | .mk _ v _ _ _ _ _ _ => v

def TV.boolValue : TV → Option Bool
  | .mk _ _ v _ _ _ _ _ => v

def TV.numberValue : TV → Option Int
  | .mk _ _ _ v _ _ _ _ => v

def TV.stringValue : TV → Option String
  | .mk _ _ _ _ v _ _ _ => v

def TV.blobValue : TV → Option (List Nat)
  | .mk _ _ _ _ _ v _ _ => v

def TV.listValue : TV → Option (List (Option TV))
  | .mk _ _ _ _ _ _ v _ => v

def TV.structValue : TV → Option (List (String × Option TV))
  | .mk _ _ _ _ _ _ _ v => v

/-- The record `{nullValue: 0}` built at line 114. -/
def tvNull : TV := .mk none (some 0) none none none none none none

/-- The record `{boolValue: value}` (line 119). -/
def tvBool (b : Bool) : TV := .mk none none (some b) none none none none none

/-- The record `{numberValue: value}` (line 126). -/
def tvNumber (n : Int) : TV := .mk none none none (some n) none none none none

/-- The record `{stringValue: value}` (lines 130, 155, 169). -/
def tvString (s : String) : TV := .mk none none none none (some s) none none none

/-- The record `{blobValue: value}` (line 141). -/
def tvBlob (bs : List Nat) : TV := .mk none none none none none (some bs) none none

/-- The record `{listValue: {values: ...}}` (line 135). -/
def tvList (vs : List (Option TV)) : TV := .mk none none none none none none (some vs) none

/-- The record `{structValue: this.convert(value)}` (line 159), keeping only the
`fields` of the produced struct. -/
def tvStruct (fs : List (String × Option TV)) : TV :=
  .mk none none none none none none none (some fs)

/-- The struct produced by `convert`: `{fields: {...}}`. -/
structure Struct where
  fields : List (String × Option TV)

/-- The identity-keyed `WeakMap` cache `_isPlainObjectCache` (line 28),
modelled as an association list keyed by object identity. -/
abbrev PCache := List (Nat × Bool)

def cacheGet : PCache → Nat → Option Bool
  | [], _ => none
  | (k, v) :: rest, id => if k = id then some v else cacheGet rest id

def cacheSet (c : PCache) (id : Nat) (b : Bool) : PCache := (id, b) :: c

/-- Embeds `isPlainObject` (lines 182-215): consult the cache first; otherwise
classify from the prototype and record the answer under the value's
identity.  The per-prototype decision of the uncached path is
`isPlainObjectPure` below. -/
def isPlainObject (cache : PCache) (id : Nat) (proto : Proto) : Bool × PCache :=
  match cacheGet cache id with
  | some b => (b, cache)
  | none =>
    match proto with
    | .nullProto => (true, cacheSet cache id true)
    | .objectProto => (true, cacheSet cache id true)
    | .custom hasCtor ctorIsFunc ctorInstSelf ctorToStrFunc =>
      if hasCtor && (ctorIsFunc && ctorInstSelf && ctorToStrFunc) then
        (true, cacheSet cache id true)
      else
        (false, cacheSet cache id false)

/-- The cache-free classification decision of `isPlainObject`: prototype
`null`/`undefined`/`Object.prototype` is plain; otherwise the prototype must
own a `constructor` that is a plain function.  The encoder is modelled with
this function: the `WeakMap` cache is keyed by object identity and only ever
stores the value this computation returns for that identity, so the cached
call always yields the same boolean (proved as `isPlainObject_fresh` /
`isPlainObject_stable` below). -/
def isPlainObjectPure : Proto → Bool
  | .nullProto => true
  | .objectProto => true
  | .custom hasCtor ctorIsFunc ctorInstSelf ctorToStrFunc =>
    hasCtor && (ctorIsFunc && ctorInstSelf && ctorToStrFunc)

/-- The converter's configuration state after its constructor ran
(lines 47-52): `seenObjects` is threaded separately through the encoding
functions. -/
structure ObjectToStructConverter where
  removeCircular : Bool
  stringify : Bool

/-- The raw constructor options record (`ObjectToStructConverterConfig`,
lines 19-22). -/
structure ObjectToStructConverterConfig where
  removeCircular : Option Bool
  stringify : Option Bool

/-- The constructor (lines 47-52): `options = options || {}`, then each flag
is on exactly when the option is `=== true`. -/
def ObjectToStructConverter.ofOptions (options : Option ObjectToStructConverterConfig) :
    ObjectToStructConverter :=
  let o := options.getD ⟨none, none⟩
  { removeCircular := match o.removeCircular with | some true => true | _ => false
    stringify := match o.stringify with | some true => true | _ => false }

/-- The `seenObjects : Set` of the converter, as the list of identities it
contains. -/
abbrev Seen := List Nat

/-- The errors `convert`/`encodeValue_` can throw, classified per the spec's
taxonomy; the payload is the exact thrown message. -/
inductive EncErr where
  | unsupportedType (msg : String)
  | circularReference (msg : String)
deriving DecidableEq

/-- The string thrown at line 112. -/
def undefinedMsg : String := "Value of type undefined not recognized."

/-- The `Error` message thrown at lines 148-153 (the two array parts joined
with a space). -/
def circularMsg : String :=
  "This object contains a circular reference. To automatically remove it, set the `removeCircular` option to true."

/-- The `Error` message of line 166 with `typeof value` = `"object"`. -/
def unrecognizedObjectMsg : String := "Value of type object not recognized."

/-- The check `is.undefined(value)` (line 82). -/
def isUndefined : JSVal → Bool
  | .undef => true
  | _ => false

/-- The tail of `convert`'s `for...in` loop once the own enumerable keys are
exhausted: each inherited enumerable key is either shadowed by an own key
(then `for...in` does not yield it at all) or fails the
`Object.prototype.hasOwnProperty.call(obj, prop)` guard at line 80, so no
inherited entry is encoded, touches the seen-set, or can fail. -/
def skipInheritedKeys (seen : Seen) :
    List (String × JSVal) → Except EncErr (List (String × Option TV)) × Seen
  | [] => (.ok [], seen)
  | _ :: rest => skipInheritedKeys seen rest

mutual

/-- Embeds `ObjectToStructConverter.encodeValue_` (lines 108-175).  The first
`switch (value)` handles `undefined`, `null`, `true`/`false`; the second
`switch (typeof value)` handles `"number"`, `"string"` and `"object"` (arrays,
buffers, plain objects, then the opaque fallback).  Plain objects found in
`seenObjects` are the circular case; fresh plain objects recurse through the
body of `convert` (inlined here — `convert` below is the same code as a
standalone entry point, see `encodeValue_obj_eq_convert`).  A value matching
no case of either `switch` (`"function"`, `"symbol"`, `"bigint"`) falls off
the end and the function returns JavaScript `undefined`, modelled as
`.ok none`. -/
def encodeValue (cfg : ObjectToStructConverter) (seen : Seen) (value : JSVal) :
    Except EncErr (Option TV) × Seen :=
  match value with
  | .undef => (.error (.unsupportedType undefinedMsg), seen)
  | .null => (.ok (some tvNull), seen)
  | .bool b => (.ok (some (tvBool b)), seen)
  | .num n => (.ok (some (tvNumber n)), seen)
  | .str s => (.ok (some (tvString s)), seen)
  | .arr elems =>
    match encodeList cfg seen elems with
    | (.ok vs, s) => (.ok (some (tvList vs)), s)
    | (.error e, s) => (.error e, s)
  | .buffer bs => (.ok (some (tvBlob bs)), seen)
  | .obj id proto own inh strForm =>
    if isPlainObjectPure proto then
      if id ∈ seen then
        if !cfg.removeCircular then
          (.error (.circularReference circularMsg), seen)
        else
          (.ok (some (tvString "[Circular]")), seen)
      else
        match convertLoop cfg (List.insert id seen) own inh with
        | (.ok fs, s) => (.ok (some (tvStruct fs)), List.erase s id)
        | (.error e, s) => (.error e, s)
    else
      if !cfg.stringify then
        (.error (.unsupportedType unrecognizedObjectMsg), seen)
      else
        (.ok (some (tvString strForm)), seen)
  | .fn _ => (.ok none, seen)
  | .sym => (.ok none, seen)
  | .bigint _ => (.ok none, seen)
termination_by structural value

/-- Embeds `value.map(this.encodeValue_.bind(this))` (line 137): encode the elements
left to right, threading `seenObjects`; a thrown error propagates with
whatever mutations earlier elements left behind. -/
def encodeList (cfg : ObjectToStructConverter) (seen : Seen) (l : List JSVal) :
    Except EncErr (List (Option TV)) × Seen :=
  match l with
  | [] => (.ok [], seen)
  | v :: rest =>
    match encodeValue cfg seen v with
    | (.ok tv, s) =>
      match encodeList cfg s rest with
      | (.ok tvs, s') => (.ok (tv :: tvs), s')
      | (.error e, s') => (.error e, s')
    | (.error e, s) => (.error e, s)
termination_by structural l

/-- The `for...in` loop of `convert` (lines 79-88) over the own enumerable
keys, followed by the inherited keys (all skipped, see `skipInheritedKeys`):
an own key passes the `hasOwnProperty` guard; a key whose value
`is.undefined` is skipped by the `continue`; every other value is encoded and
stored under its key. -/
def convertLoop (cfg : ObjectToStructConverter) (seen : Seen)
    (own : List (String × JSVal)) (inh : List (String × JSVal)) :
    Except EncErr (List (String × Option TV)) × Seen :=
  match own with
  | [] => skipInheritedKeys seen inh
  | (key, value) :: rest =>
    if isUndefined value then
      convertLoop cfg seen rest inh
    else
      match encodeValue cfg seen value with
      | (.ok tv, s) =>
        match convertLoop cfg s rest inh with
        | (.ok fs, s') => (.ok ((key, tv) :: fs), s')
        | (.error e, s') => (.error e, s')
      | (.error e, s) => (.error e, s)
termination_by structural own

end

/-- Embeds `ObjectToStructConverter.convert` (lines 74-91) on an object with identity
`id`, own enumerable properties `own` and inherited enumerable properties
`inh`: `this.seenObjects.add(obj)`, run the field loop, and — only when the
loop completes without a thrown error — `this.seenObjects.delete(obj)`.  On
the error path the function unwinds before reaching the `delete` at line 89,
so the returned seen-set still contains `id`. -/
def convert (cfg : ObjectToStructConverter) (seen : Seen) (id : Nat)
    (own inh : List (String × JSVal)) : Except EncErr Struct × Seen :=
  match convertLoop cfg (List.insert id seen) own inh with
  | (.ok fs, s) => (.ok ⟨fs⟩, List.erase s id)
  | (.error e, s) => (.error e, s)

/-- Embeds `objToStruct` (lines 24-26): build a converter from the options and run
`convert` with a fresh (empty) `seenObjects`. -/
def objToStruct (id : Nat) (own inh : List (String × JSVal))
    (options : ObjectToStructConverterConfig) : Except EncErr Struct × Seen :=
  convert (ObjectToStructConverter.ofOptions (some options)) [] id own inh

/-- The plain-object branch of `encodeValue_` at line 159 is exactly
`{structValue: this.convert(value)}`: inlining `convert`'s body inside the
mutual recursion above agrees with the standalone `convert`. -/
theorem encodeValue_obj_eq_convert (cfg : ObjectToStructConverter) (seen : Seen)
    (id : Nat) (proto : Proto) (own inh : List (String × JSVal)) (strForm : String)
    (hp : isPlainObjectPure proto = true) (hid : id ∉ seen) :
    encodeValue cfg seen (.obj id proto own inh strForm) =
      (match convert cfg seen id own inh with
       | (.ok st, s) => (.ok (some (tvStruct st.fields)), s)
       | (.error e, s) => (.error e, s)) := by
  rw [encodeValue, convert]
  rcases h : convertLoop cfg (List.insert id seen) own inh with ⟨r, s⟩
  cases r <;> simp [hp, hid]

example :
    convert ⟨false, false⟩ [] 0 [("aString", JSVal.str "Hi")] [] =
      (.ok ⟨[("aString", some (tvString "Hi"))]⟩, []) := rfl

/-- The decoder's only failure mode in the model: a JavaScript `TypeError`
from reading a property of `undefined` (e.g. `value.kind` when a field slot
holds `undefined`, or `struct.fields` / `listValue.values` when the selected
payload is absent). -/
inductive DecErr where
  | typeError
deriving DecidableEq

/-- The dynamic property access `value[value.kind]` of the decoder's
`default` case (line 275), restricted to the payload properties a tagged
value can carry: the named property's value if present, JavaScript
`undefined` otherwise (also when `kind` itself is absent, i.e.
`value[undefined]`).  The `structValue` / `nullValue` / `listValue` kinds
never reach this access — the `switch` handles them first. -/
def dynGet (kind : Option String) (nv : Option Int) (bv : Option Bool)
    (numv : Option Int) (sv : Option String) (blobv : Option (List Nat)) : JSVal :=
  match kind with
  | some "nullValue" => match nv with | some n => .num n | none => .undef
  | some "boolValue" => match bv with | some b => .bool b | none => .undef
  | some "numberValue" => match numv with | some n => .num n | none => .undef
  | some "stringValue" => match sv with | some s => .str s | none => .undef
  | some "blobValue" => match blobv with | some bs => .buffer bs | none => .undef
  | _ => .undef

mutual

/-- Embeds `decodeValue` (lines 260-278) applied to a present (non-`undefined`)
tagged value: `switch (value.kind)`.  `structValue` recurses through the body
of `structToObj` (inlined here; `structToObj` below is the same code as a
standalone entry point, see `decodeValue_structValue_eq_structToObj`);
`nullValue` yields `null`; `listValue` maps `decodeValue` over
`listValue.values`; every other kind — including an absent `kind` — returns
`value[value.kind]`.  The `undefined` argument case of `decodeValue` (reading
`value.kind` throws a `TypeError`) lives in the `decodeValue` wrapper below
and is inlined at the recursive call sites in `structLoop` and
`decodeList`. -/
def decodeTV (value : TV) : Except DecErr JSVal :=
  match value with
  | .mk kind nv bv numv sv blobv lv stv =>
    match kind with
    | some "structValue" =>
      match stv with
      | some fs =>
        match structLoop fs with
        | .ok props => .ok (.obj 0 .objectProto props [] "[object Object]")
        | .error e => .error e
      | none => .error .typeError
    | some "nullValue" => .ok .null
    | some "listValue" =>
      match lv with
      | some vs =>
        match decodeList vs with
        | .ok elems => .ok (.arr elems)
        | .error e => .error e
      | none => .error .typeError
    | k => .ok (dynGet k nv bv numv sv blobv)
termination_by structural value

/-- The `for...in` loop of `structToObj` (lines 242-248): decode each field
in order into a property of the result object. -/
def structLoop (fields : List (String × Option TV)) :
    Except DecErr (List (String × JSVal)) :=
  match fields with
  | [] => .ok []
  | (key, v) :: rest =>
    match (match v with | none => .error .typeError | some t => decodeTV t :
        Except DecErr JSVal) with
    | .ok jv =>
      match structLoop rest with
      | .ok props => .ok ((key, jv) :: props)
      | .error e => .error e
    | .error e => .error e
termination_by structural fields

/-- Embeds `value.listValue.values.map(decodeValue)` (line 271). -/
def decodeList (l : List (Option TV)) : Except DecErr (List JSVal) :=
  match l with
  | [] => .ok []
  | v :: rest =>
    match (match v with | none => .error .typeError | some t => decodeTV t :
        Except DecErr JSVal) with
    | .ok jv =>
      match decodeList rest with
      | .ok elems => .ok (jv :: elems)
      | .error e => .error e
    | .error e => .error e
termination_by structural l

end

/-- Embeds `decodeValue` (lines 260-278) as called on an arbitrary field or element
slot: a slot holding JavaScript `undefined` throws a `TypeError` the moment
`value.kind` is read; otherwise dispatch on the tag via `decodeTV`. -/
def decodeValue (value : Option TV) : Except DecErr JSVal :=
  match value with
  | none => .error .typeError
  | some t => decodeTV t

/-- Embeds `structToObj` (lines 239-251): a fresh object literal (`{}`, hence
identity modelled as `0`, prototype `Object.prototype`, no inherited
properties) whose properties are the decoded fields. -/
def structToObj (fields : List (String × Option TV)) : Except DecErr JSVal :=
  match structLoop fields with
  | .ok props => .ok (.obj 0 .objectProto props [] "[object Object]")
  | .error e => .error e

/-- The `structValue` branch of `decodeValue` is exactly
`structToObj(value.structValue)`. -/
theorem decodeValue_structValue_eq_structToObj (nv : Option Int) (bv : Option Bool)
    (numv : Option Int) (sv : Option String) (blobv : Option (List Nat))
    (lv : Option (List (Option TV))) (fs : List (String × Option TV)) :
    decodeValue (some (.mk (some "structValue") nv bv numv sv blobv lv (some fs))) =
      structToObj fs := rfl

example :
    structToObj [("name", some (TV.mk (some "stringValue") none none none
        (some "Stephen") none none none))] =
      .ok (.obj 0 .objectProto [("name", JSVal.str "Stephen")] [] "[object Object]") := rfl

/-! ### Structural equality up to identity

The spec's round-trip property compares values structurally: "object key sets
and values match, list order preserved".  `strip` maps a value to the normal
form the decoder produces — object identities become the fresh-literal
identity `0`, prototypes `Object.prototype`, inherited properties and string
forms those of a plain `{}` literal — so that `strip a = strip b` is exactly
"structurally equal" for the data kinds the round trip covers. -/

mutual

def strip (v : JSVal) : JSVal :=
  match v with
  | .arr elems => .arr (stripList elems)
  | .obj _ _ own _ _ => .obj 0 .objectProto (stripFields own) [] "[object Object]"
  | x => x
termination_by structural v

def stripList (l : List JSVal) : List JSVal :=
  match l with
  | [] => []
  | v :: rest => strip v :: stripList rest
termination_by structural l

def stripFields (l : List (String × JSVal)) : List (String × JSVal) :=
  match l with
  | [] => []
  | (key, v) :: rest => (key, strip v) :: stripFields rest
termination_by structural l

end

/-! ### Kind annotation

The source decoder dispatches on `value.kind`, a discriminator the encoder
never writes: on the wire it is the protobuf layer that records which `oneof`
variant is populated.  `annotTV` performs that annotation: it stamps every
tagged value, recursively, with the name of its populated variant. -/

/-- The discriminator named by the populated variant, in the fixed field
order of `TV`; `none` when no variant is populated. -/
def pickKind (nv : Option Int) (bv : Option Bool) (numv : Option Int)
    (sv : Option String) (blobv : Option (List Nat))
    (lv : Option (List (Option TV))) (stv : Option (List (String × Option TV))) :
    Option String :=
  if nv.isSome then some "nullValue"
  else if bv.isSome then some "boolValue"
  else if numv.isSome then some "numberValue"
  else if sv.isSome then some "stringValue"
  else if blobv.isSome then some "blobValue"
  else if lv.isSome then some "listValue"
  else if stv.isSome then some "structValue"
  else none

mutual

def annotTV (t : TV) : TV :=
  match t with
  | .mk _ nv bv numv sv blobv lv stv =>
    .mk (pickKind nv bv numv sv blobv lv stv) nv bv numv sv blobv
      (annotValuesOpt lv) (annotFieldsOpt stv)
termination_by structural t

def annotValuesOpt (o : Option (List (Option TV))) : Option (List (Option TV)) :=
  match o with
  | none => none
  | some vs => some (annotValues vs)
termination_by structural o

def annotValues (l : List (Option TV)) : List (Option TV) :=
  match l with
  | [] => []
  | none :: rest => none :: annotValues rest
  | some t :: rest => some (annotTV t) :: annotValues rest
termination_by structural l

def annotFieldsOpt (o : Option (List (String × Option TV))) :
    Option (List (String × Option TV)) :=
  match o with
  | none => none
  | some fs => some (annotFields fs)
termination_by structural o

def annotFields (l : List (String × Option TV)) : List (String × Option TV) :=
  match l with
  | [] => []
  | (key, none) :: rest => (key, none) :: annotFields rest
  | (key, some t) :: rest => (key, some (annotTV t)) :: annotFields rest
termination_by structural l

end

/-! ### Round-trippable values

`plainData seen v` holds when `v` is built only from the kinds the spec's
round-trip property quantifies over — `null`, booleans, numbers, strings,
byte blobs, lists and plain objects — contains no `undefined` member, and no
object's identity recurs on an ancestor chain already containing it (`seen`
collects the ancestors), so the encoder's circular-reference check never
fires.  Sharing between siblings is permitted. -/

mutual

def plainData (seen : Seen) (v : JSVal) : Bool :=
  match v with
  | .undef => false
  | .null => true
  | .bool _ => true
  | .num _ => true
  | .str _ => true
  | .buffer _ => true
  | .arr elems => plainDataList seen elems
  | .obj id proto own _ _ =>
    isPlainObjectPure proto && !decide (id ∈ seen) &&
      plainDataFields (List.insert id seen) own
  | .fn _ => false
  | .sym => false
  | .bigint _ => false
termination_by structural v

def plainDataList (seen : Seen) (l : List JSVal) : Bool :=
  match l with
  | [] => true
  | v :: rest => plainData seen v && plainDataList seen rest
termination_by structural l

def plainDataFields (seen : Seen) (l : List (String × JSVal)) : Bool :=
  match l with
  | [] => true
  | (_, v) :: rest => plainData seen v && plainDataFields seen rest
termination_by structural l

end

/-! ### Supporting lemmas -/

theorem skipInheritedKeys_eq (seen : Seen) (inh : List (String × JSVal)) :
    skipInheritedKeys seen inh = (.ok [], seen) := by
  induction inh with
  | nil => rfl
  | cons p rest ih => exact ih

theorem erase_insert_self (id : Nat) (seen : Seen) (h : id ∉ seen) :
    (List.insert id seen).erase id = seen := by
  rw [List.insert_of_not_mem h, List.erase_cons_head]

/-- Inherited enumerable properties never influence `convert`'s field loop:
every one of them is skipped. -/
theorem convertLoop_inh (cfg : ObjectToStructConverter) (own : List (String × JSVal)) :
    ∀ (seen : Seen) (inh inh' : List (String × JSVal)),
      convertLoop cfg seen own inh = convertLoop cfg seen own inh' := by
  induction own with
  | nil =>
    intro seen inh inh'
    simp only [convertLoop, skipInheritedKeys_eq]
  | cons kv rest ih =>
    intro seen inh inh'
    obtain ⟨key, value⟩ := kv
    simp only [convertLoop]
    by_cases hu : isUndefined value
    · simp only [hu, if_true]
      exact ih seen inh inh'
    · simp only [hu, if_false, Bool.false_eq_true]
      rcases encodeValue cfg seen value with ⟨r, s⟩
      cases r with
      | ok tv =>
        dsimp only
        rw [ih s inh inh']
      | error e => rfl

mutual

theorem encodeValue_ok_restores (cfg : ObjectToStructConverter) (seen : Seen)
    (v : JSVal) (tv : Option TV) (s : Seen)
    (h : encodeValue cfg seen v = (.ok tv, s)) : s = seen := by
  match v with
  | .undef => simp [encodeValue] at h
  | .null => simp [encodeValue] at h; exact h.2.symm
  | .bool b => simp [encodeValue] at h; exact h.2.symm
  | .num n => simp [encodeValue] at h; exact h.2.symm
  | .str str => simp [encodeValue] at h; exact h.2.symm
  | .buffer bs => simp [encodeValue] at h; exact h.2.symm
  | .fn sf => simp [encodeValue] at h; exact h.2.symm
  | .sym => simp [encodeValue] at h; exact h.2.symm
  | .bigint n => simp [encodeValue] at h; exact h.2.symm
  | .arr elems =>
    rw [encodeValue] at h
    split at h
    · rename_i vs s' hel
      injection h with h1 h2
      rw [← h2]
      exact encodeList_ok_restores cfg seen elems vs s' hel
    · exact absurd (congrArg Prod.fst h) (by simp)
  | .obj id proto own inh sf =>
    rw [encodeValue] at h
    by_cases hp : isPlainObjectPure proto = true
    · rw [if_pos hp] at h
      by_cases hid : id ∈ seen
      · rw [if_pos hid] at h
        cases hrc : cfg.removeCircular <;> simp [hrc] at h
        · exact h.2.symm
      · rw [if_neg hid] at h
        split at h
        · rename_i fs s' hcl
          injection h with h1 h2
          have hs' : s' = List.insert id seen :=
            convertLoop_ok_restores cfg (List.insert id seen) own inh fs s' hcl
          rw [← h2, hs']
          exact erase_insert_self id seen hid
        · exact absurd (congrArg Prod.fst h) (by simp)
    · rw [if_neg hp] at h
      cases hst : cfg.stringify <;> simp [hst] at h
      · exact h.2.symm

theorem encodeList_ok_restores (cfg : ObjectToStructConverter) (seen : Seen)
    (l : List JSVal) (vs : List (Option TV)) (s : Seen)
    (h : encodeList cfg seen l = (.ok vs, s)) : s = seen := by
  match l with
  | [] => simp [encodeList] at h; exact h.2.symm
  | v :: rest =>
    rw [encodeList] at h
    split at h
    · rename_i tv s1 hev
      have hs1 : s1 = seen := encodeValue_ok_restores cfg seen v tv s1 hev
      subst hs1
      split at h
      · rename_i tvs s2 hel
        injection h with h1 h2
        rw [← h2]
        exact encodeList_ok_restores cfg s1 rest tvs s2 hel
      · exact absurd (congrArg Prod.fst h) (by simp)
    · exact absurd (congrArg Prod.fst h) (by simp)

theorem convertLoop_ok_restores (cfg : ObjectToStructConverter) (seen : Seen)
    (own inh : List (String × JSVal)) (fs : List (String × Option TV)) (s : Seen)
    (h : convertLoop cfg seen own inh = (.ok fs, s)) : s = seen := by
  match own with
  | [] =>
    rw [convertLoop, skipInheritedKeys_eq] at h
    exact (congrArg Prod.snd h).symm
  | (key, value) :: rest =>
    rw [convertLoop] at h
    by_cases hu : isUndefined value
    · rw [if_pos hu] at h
      exact convertLoop_ok_restores cfg seen rest inh fs s h
    · rw [if_neg hu] at h
      split at h
      · rename_i tv s1 hev
        have hs1 : s1 = seen := encodeValue_ok_restores cfg seen value tv s1 hev
        subst hs1
        split at h
        · rename_i fs' s2 hcl
          injection h with h1 h2
          rw [← h2]
          exact convertLoop_ok_restores cfg s1 rest inh fs' s2 hcl
        · exact absurd (congrArg Prod.fst h) (by simp)
      · exact absurd (congrArg Prod.fst h) (by simp)

end

theorem plainData_not_undefined (seen : Seen) (v : JSVal) (h : plainData seen v = true) :
    isUndefined v = false := by
  cases v <;> first | rfl | simp [plainData] at h

theorem annotTV_tvList (vs : List (Option TV)) :
    annotTV (tvList vs) =
      .mk (some "listValue") none none none none none (some (annotValues vs)) none := rfl

theorem annotTV_tvStruct (fs : List (String × Option TV)) :
    annotTV (tvStruct fs) =
      .mk (some "structValue") none none none none none none (some (annotFields fs)) := rfl

theorem decodeValue_listValue (nv : Option Int) (bv : Option Bool) (numv : Option Int)
    (sv : Option String) (blobv : Option (List Nat)) (stv : Option (List (String × Option TV)))
    (vs : List (Option TV)) :
    decodeValue (some (.mk (some "listValue") nv bv numv sv blobv (some vs) stv)) =
      (match decodeList vs with
       | .ok elems => .ok (.arr elems)
       | .error e => .error e) := rfl

mutual

/-- Every round-trippable value encodes successfully (restoring the seen-set)
and, once the transport layer has stamped the `kind` discriminators, decodes
back to its structural normal form. -/
theorem encodeDecode_val (cfg : ObjectToStructConverter) (seen : Seen) (v : JSVal)
    (h : plainData seen v = true) :
    ∃ t : TV, encodeValue cfg seen v = (.ok (some t), seen) ∧
      decodeValue (some (annotTV t)) = .ok (strip v) := by
  match v with
  | .null => exact ⟨tvNull, rfl, rfl⟩
  | .bool b => exact ⟨tvBool b, rfl, rfl⟩
  | .num n => exact ⟨tvNumber n, rfl, rfl⟩
  | .str s => exact ⟨tvString s, rfl, rfl⟩
  | .buffer bs => exact ⟨tvBlob bs, rfl, rfl⟩
  | .undef => simp [plainData] at h
  | .fn sf => simp [plainData] at h
  | .sym => simp [plainData] at h
  | .bigint n => simp [plainData] at h
  | .arr elems =>
    rw [plainData] at h
    obtain ⟨vs, henc, hdec⟩ := encodeDecode_list cfg seen elems h
    refine ⟨tvList vs, ?_, ?_⟩
    · rw [encodeValue, henc]
    · rw [annotTV_tvList, decodeValue_listValue, hdec]
      simp only [strip]
  | .obj id proto own inh sf =>
    rw [plainData] at h
    simp only [Bool.and_eq_true, Bool.not_eq_true', decide_eq_false_iff_not] at h
    obtain ⟨⟨hp, hid⟩, hf⟩ := h
    obtain ⟨fs, henc, hdec⟩ := encodeDecode_fields cfg (List.insert id seen) own hf
    refine ⟨tvStruct fs, ?_, ?_⟩
    · rw [encodeValue, if_pos hp, if_neg hid,
        convertLoop_inh cfg own (List.insert id seen) inh [], henc]
      dsimp only
      rw [erase_insert_self id seen hid]
    · rw [annotTV_tvStruct, decodeValue_structValue_eq_structToObj, structToObj, hdec]
      simp only [strip]

theorem encodeDecode_list (cfg : ObjectToStructConverter) (seen : Seen) (l : List JSVal)
    (h : plainDataList seen l = true) :
    ∃ vs : List (Option TV), encodeList cfg seen l = (.ok vs, seen) ∧
      decodeList (annotValues vs) = .ok (stripList l) := by
  match l with
  | [] => exact ⟨[], rfl, rfl⟩
  | v :: rest =>
    rw [plainDataList] at h
    simp only [Bool.and_eq_true] at h
    obtain ⟨hv, hrest⟩ := h
    obtain ⟨t, henc1, hdec1⟩ := encodeDecode_val cfg seen v hv
    obtain ⟨vs, henc2, hdec2⟩ := encodeDecode_list cfg seen rest hrest
    refine ⟨some t :: vs, ?_, ?_⟩
    · rw [encodeList, henc1]
      dsimp only
      rw [henc2]
    · have hdec1' : decodeTV (annotTV t) = .ok (strip v) := hdec1
      rw [annotValues, decodeList]
      rw [hdec1']
      rw [hdec2]
      simp only [stripList]

theorem encodeDecode_fields (cfg : ObjectToStructConverter) (seen : Seen)
    (own : List (String × JSVal)) (h : plainDataFields seen own = true) :
    ∃ fs : List (String × Option TV), convertLoop cfg seen own [] = (.ok fs, seen) ∧
      structLoop (annotFields fs) = .ok (stripFields own) := by
  match own with
  | [] => exact ⟨[], rfl, rfl⟩
  | (key, value) :: rest =>
    rw [plainDataFields] at h
    simp only [Bool.and_eq_true] at h
    obtain ⟨hv, hrest⟩ := h
    obtain ⟨t, henc1, hdec1⟩ := encodeDecode_val cfg seen value hv
    obtain ⟨fs, henc2, hdec2⟩ := encodeDecode_fields cfg seen rest hrest
    refine ⟨(key, some t) :: fs, ?_, ?_⟩
    · rw [convertLoop, plainData_not_undefined seen value hv]
      simp only [Bool.false_eq_true, if_false]
      rw [henc1]
      dsimp only
      rw [henc2]
    · have hdec1' : decodeTV (annotTV t) = .ok (strip value) := hdec1
      rw [annotFields, structLoop]
      rw [hdec1']
      rw [hdec2]
      simp only [stripFields]

end

/-- Filtering `Undefined`-valued entries out of the own properties does not
change the conversion: the loop's `continue` skips exactly those entries. -/
theorem convertLoop_filter_undefined (cfg : ObjectToStructConverter)
    (own : List (String × JSVal)) :
    ∀ (seen : Seen) (inh : List (String × JSVal)),
      convertLoop cfg seen own inh =
        convertLoop cfg seen (own.filter fun p => !isUndefined p.2) inh := by
  induction own with
  | nil => intro seen inh; rfl
  | cons kv rest ih =>
    intro seen inh
    obtain ⟨key, value⟩ := kv
    by_cases hu : isUndefined value = true
    · rw [List.filter_cons]
      simp only [hu, Bool.not_true, Bool.false_eq_true, if_false]
      rw [convertLoop, if_pos hu]
      exact ih seen inh
    · rw [List.filter_cons]
      have hu' : isUndefined value = false := by
        cases hval : isUndefined value
        · rfl
        · exact absurd hval hu
      simp only [hu', Bool.not_false, if_true]
      rw [convertLoop, convertLoop, if_neg hu, if_neg hu]
      rcases encodeValue cfg seen value with ⟨r, s⟩
      cases r with
      | ok tv =>
        dsimp only
        rw [ih s inh]
      | error e => rfl

/-- A successful `encodeList` run encodes the elements pointwise, in order,
each from (and back to) the same seen-set. -/
theorem encodeList_ok_pointwise (cfg : ObjectToStructConverter) (seen : Seen)
    (elems : List JSVal) :
    ∀ (vs : List (Option TV)) (s : Seen), encodeList cfg seen elems = (.ok vs, s) →
      vs.length = elems.length ∧
      ∀ i (hi : i < elems.length) (hi' : i < vs.length),
        encodeValue cfg seen (elems.get ⟨i, hi⟩) = (.ok (vs.get ⟨i, hi'⟩), seen) := by
  induction elems with
  | nil =>
    intro vs s h
    rw [encodeList] at h
    injection h with h1 h2
    injection h1 with h1
    subst h1
    exact ⟨rfl, fun i hi hi' => absurd hi (by simp)⟩
  | cons v rest ih =>
    intro vs s h
    rw [encodeList] at h
    split at h
    · rename_i tv s1 hev
      have hs1 : s1 = seen := encodeValue_ok_restores cfg seen v tv s1 hev
      subst hs1
      split at h
      · rename_i tvs s2 hel
        injection h with h1 h2
        injection h1 with h1
        subst h1
        obtain ⟨hlen, hpt⟩ := ih tvs s2 hel
        refine ⟨by simp [hlen], ?_⟩
        intro i hi hi'
        match i with
        | 0 => exact hev
        | i + 1 => exact hpt i (by simpa using hi) (by simpa using hi')
      · exact absurd (congrArg Prod.fst h) (by simp)
    · exact absurd (congrArg Prod.fst h) (by simp)

/-- Unfolding `decodeList` at a cons: decode the head slot (via the inlined
`decodeValue`), then the remaining slots. -/
theorem decodeList_cons (v : Option TV) (rest : List (Option TV)) :
    decodeList (v :: rest) =
      (match decodeValue v with
       | .ok jv =>
         match decodeList rest with
         | .ok elems => .ok (jv :: elems)
         | .error e => .error e
       | .error e => .error e) := by
  cases v <;> rfl

/-- Unfolding `structLoop` at a cons: decode the head field's slot (via the
inlined `decodeValue`), then the remaining fields. -/
theorem structLoop_cons (key : String) (v : Option TV)
    (rest : List (String × Option TV)) :
    structLoop ((key, v) :: rest) =
      (match decodeValue v with
       | .ok jv =>
         match structLoop rest with
         | .ok props => .ok ((key, jv) :: props)
         | .error e => .error e
       | .error e => .error e) := by
  cases v <;> rfl

/-- A successful `decodeList` run decodes the elements pointwise, in order. -/
theorem decodeList_ok_pointwise (vs : List (Option TV)) :
    ∀ (elems : List JSVal), decodeList vs = .ok elems →
      elems.length = vs.length ∧
      ∀ i (hi : i < vs.length) (hi' : i < elems.length),
        decodeValue (vs.get ⟨i, hi⟩) = .ok (elems.get ⟨i, hi'⟩) := by
  induction vs with
  | nil =>
    intro elems h
    rw [show decodeList [] = .ok [] from rfl] at h
    injection h with h1
    subst h1
    exact ⟨rfl, fun i hi hi' => absurd hi (by simp)⟩
  | cons v rest ih =>
    intro elems h
    rw [decodeList_cons] at h
    split at h
    · rename_i jv hjv
      split at h
      · rename_i elems' hrest
        injection h with h1
        subst h1
        obtain ⟨hlen, hpt⟩ := ih elems' hrest
        refine ⟨by simp [hlen], ?_⟩
        intro i hi hi'
        match i with
        | 0 => exact hjv
        | i + 1 => exact hpt i (by simpa using hi) (by simpa using hi')
      · exact absurd h (by simp)
    · exact absurd h (by simp)

/-- How many of the seven payload variants of a tagged value are populated. -/
def populatedCount (t : TV) : Nat :=
  match t with
  | .mk _ nv bv numv sv blobv lv stv =>
    (if nv.isSome then 1 else 0) + (if bv.isSome then 1 else 0) +
    (if numv.isSome then 1 else 0) + (if sv.isSome then 1 else 0) +
    (if blobv.isSome then 1 else 0) + (if lv.isSome then 1 else 0) +
    (if stv.isSome then 1 else 0)

/-! ## The claims -/

/-- C1 (counterexample): the round trip as literally claimed —
`structToObj` applied to the result of `convert` — is not the identity.
For `v = {a: 1}`: `convert` yields `fields.a = {numberValue: 1}` but writes
no `kind` discriminator, so `decodeValue`'s `switch (value.kind)` falls to
its `default` case and returns `value[undefined]`, i.e. `undefined`; the
decoded object is `{a: undefined}`, not structurally equal to `{a: 1}`. -/
theorem roundtrip_as_claimed_fails :
    (convert ⟨false, false⟩ [] 0 [("a", JSVal.num 1)] []).1 =
      .ok ⟨[("a", some (tvNumber 1))]⟩ ∧
    structToObj [("a", some (tvNumber 1))] =
      .ok (.obj 0 .objectProto [("a", JSVal.undef)] [] "[object Object]") ∧
    strip (JSVal.obj 0 .objectProto [("a", JSVal.num 1)] [] "[object Object]") =
      .obj 0 .objectProto [("a", JSVal.num 1)] [] "[object Object]" ∧
    (Except.ok (JSVal.obj 0 .objectProto [("a", JSVal.undef)] [] "[object Object]") :
        Except DecErr JSVal) ≠
      .ok (.obj 0 .objectProto [("a", JSVal.num 1)] [] "[object Object]") :=
  ⟨rfl, rfl, rfl, by simp⟩

/-- C1 (amended): for every acyclic plain-data object — built only from
null, booleans, numbers, strings, byte blobs, lists and plain objects, with
no `Undefined` member (`plainData`) — the encoding succeeds, and once each
encoded tagged value is annotated with the `kind` discriminator naming its
populated variant (`annotFields`, the transport layer's contribution),
`structToObj` returns the original value up to structural equality: same
object key sets and values in order, list order preserved (`strip`
normalises exactly the identity-and-prototype data that a decoded fresh
object literal cannot share with the input). -/
theorem roundtrip_with_kind_tags (cfg : ObjectToStructConverter) (id : Nat)
    (proto : Proto) (own inh : List (String × JSVal)) (strForm : String)
    (h : plainData [] (JSVal.obj id proto own inh strForm) = true) :
    ∃ st : Struct, convert cfg [] id own inh = (.ok st, []) ∧
      structToObj (annotFields st.fields) =
        .ok (strip (JSVal.obj id proto own inh strForm)) := by
  rw [plainData] at h
  simp only [Bool.and_eq_true, Bool.not_eq_true', decide_eq_false_iff_not] at h
  obtain ⟨⟨hp, hid⟩, hf⟩ := h
  obtain ⟨fs, henc, hdec⟩ := encodeDecode_fields cfg (List.insert id []) own hf
  refine ⟨⟨fs⟩, ?_, ?_⟩
  · rw [convert, convertLoop_inh cfg own (List.insert id []) inh [], henc]
    dsimp only
    rw [erase_insert_self id [] hid]
  · rw [structToObj, hdec]
    simp only [strip]

/-- C1 (witness): a concrete instance — `{a: 1, b: [true, "x"], c: {d: null}}`
round-trips through encoding plus kind annotation plus decoding. -/
theorem roundtrip_with_kind_tags_witness :
    ∃ st : Struct,
      convert ⟨false, false⟩ [] 0
          [("a", JSVal.num 1),
           ("b", JSVal.arr [JSVal.bool true, JSVal.str "x"]),
           ("c", JSVal.obj 1 .objectProto [("d", JSVal.null)] [] "[object Object]")] [] =
        (.ok st, []) ∧
      structToObj (annotFields st.fields) =
        .ok (strip (JSVal.obj 0 .objectProto
          [("a", JSVal.num 1),
           ("b", JSVal.arr [JSVal.bool true, JSVal.str "x"]),
           ("c", JSVal.obj 1 .objectProto [("d", JSVal.null)] [] "[object Object]")] []
          "[object Object]")) :=
  roundtrip_with_kind_tags ⟨false, false⟩ 0 .objectProto
    [("a", JSVal.num 1),
     ("b", JSVal.arr [JSVal.bool true, JSVal.str "x"]),
     ("c", JSVal.obj 1 .objectProto [("d", JSVal.null)] [] "[object Object]")] []
    "[object Object]" (by decide)

/-- C2: the claim says the visiting-set entry is released on every exit path
of `convert`.  The code releases it only after the field loop completes: when
`encodeValue_` throws while encoding a field, `this.seenObjects.delete(obj)`
at line 89 is never reached.  Concretely, `convert` on the object of identity
`0` with own properties `{a: [undefined]}` throws `UnsupportedType` and
returns with `0` still in the seen-set — and a later `encodeValue_` call on
any plain object of identity `0` under the same converter then spuriously
reports a circular reference. -/
theorem convert_error_keeps_visiting_entry :
    convert ⟨false, false⟩ [] 0 [("a", JSVal.arr [JSVal.undef])] [] =
      (.error (.unsupportedType undefinedMsg), [0]) ∧
    encodeValue ⟨false, false⟩ [0]
        (JSVal.obj 0 .objectProto [("b", JSVal.num 1)] [] "[object Object]") =
      (.error (.circularReference circularMsg), [0]) :=
  ⟨rfl, rfl⟩

/-- C3: when `encodeValue_` meets a plain object whose identity is in the
active visiting set, the outcome is decided by `removeCircular`: `false`
(the default) throws the `CircularReference` error, `true` yields
`{stringValue: "[Circular]"}` — in both cases without touching the
seen-set or the object's fields. -/
theorem circular_reference_dichotomy (cfg : ObjectToStructConverter) (seen : Seen)
    (id : Nat) (proto : Proto) (own inh : List (String × JSVal)) (strForm : String)
    (hp : isPlainObjectPure proto = true) (hs : id ∈ seen) :
    encodeValue cfg seen (.obj id proto own inh strForm) =
      (if cfg.removeCircular then (.ok (some (tvString "[Circular]")), seen)
       else (.error (.circularReference circularMsg), seen)) := by
  rw [encodeValue, if_pos hp, if_pos hs]
  cases hrc : cfg.removeCircular <;> simp

/-- C3 (witness): the spec's `o.self = o` example, as the object of identity
`0` whose `self` property has identity `0` again (its fields are never
inspected — the identity check fires first — so the cycle is unfolded once
and truncated): `convert(o)` throws `CircularReference` by default;
with `removeCircular = true` it succeeds with
`fields.self = {stringValue: "[Circular]"}`; and an unset options record
leaves `removeCircular` false. -/
theorem circular_reference_dichotomy_witness :
    encodeValue ⟨false, false⟩ [0]
        (JSVal.obj 0 .objectProto [] [] "[object Object]") =
      (.error (.circularReference circularMsg), [0]) ∧
    convert ⟨false, false⟩ [] 0
        [("self", JSVal.obj 0 .objectProto [] [] "[object Object]")] [] =
      (.error (.circularReference circularMsg), [0]) ∧
    convert ⟨true, false⟩ [] 0
        [("self", JSVal.obj 0 .objectProto [] [] "[object Object]")] [] =
      (.ok ⟨[("self", some (tvString "[Circular]"))]⟩, []) ∧
    (ObjectToStructConverter.ofOptions none).removeCircular = false := by
  refine ⟨?_, rfl, rfl, rfl⟩
  simpa using circular_reference_dichotomy ⟨false, false⟩ [0] 0 .objectProto
    [] [] "[object Object]" rfl (by decide)

/-- C4: when `encodeValue_` meets a composite that is not an array, not a
buffer and not classified plain, the outcome is decided by `stringify`:
`false` (the default) throws `UnsupportedType` with message
"Value of type object not recognized." (the source message carries the
trailing period), `true` yields `{stringValue: String(value)}`. -/
theorem opaque_type_dichotomy (cfg : ObjectToStructConverter) (seen : Seen)
    (id : Nat) (proto : Proto) (own inh : List (String × JSVal)) (strForm : String)
    (hp : isPlainObjectPure proto = false) :
    encodeValue cfg seen (.obj id proto own inh strForm) =
      (if cfg.stringify then (.ok (some (tvString strForm)), seen)
       else (.error (.unsupportedType unrecognizedObjectMsg), seen)) := by
  rw [encodeValue, if_neg (by simp [hp])]
  cases hst : cfg.stringify <;> simp

/-- C4 (witness): a custom class instance — prototype owning a `constructor`
that is a function but not `instanceof` itself and not stringifying to
`"[object Function]"` — fails with `UnsupportedType` under the default
configuration and stringifies under `stringify = true`; and an unset options
record leaves `stringify` false. -/
theorem opaque_type_dichotomy_witness :
    encodeValue ⟨false, false⟩ []
        (JSVal.obj 5 (.custom true true false false) [] [] "[object Object]") =
      (.error (.unsupportedType unrecognizedObjectMsg), []) ∧
    encodeValue ⟨false, true⟩ []
        (JSVal.obj 5 (.custom true true false false) [] [] "a MyClass instance") =
      (.ok (some (tvString "a MyClass instance")), []) ∧
    (ObjectToStructConverter.ofOptions none).stringify = false := by
  refine ⟨?_, ?_, rfl⟩
  · simpa using opaque_type_dichotomy ⟨false, false⟩ [] 5
      (.custom true true false false) [] [] "[object Object]" rfl
  · simpa using opaque_type_dichotomy ⟨false, true⟩ [] 5
      (.custom true true false false) [] [] "a MyClass instance" rfl

/-- C5: `convert` reads only the own enumerable keys — the inherited
enumerable properties can be replaced by anything (in particular dropped)
without changing the result; entries whose value is `Undefined` are skipped
exactly as if they were absent; and on `{a: 1, b: undefined}` the result has
the single field `a = {numberValue: 1}`, with `b` absent entirely. -/
theorem convert_own_keys_skip_undefined :
    (∀ (cfg : ObjectToStructConverter) (seen : Seen) (id : Nat)
        (own inh inh' : List (String × JSVal)),
      convert cfg seen id own inh = convert cfg seen id own inh') ∧
    (∀ (cfg : ObjectToStructConverter) (seen : Seen) (id : Nat)
        (own inh : List (String × JSVal)),
      convert cfg seen id own inh =
        convert cfg seen id (own.filter fun p => !isUndefined p.2) inh) ∧
    convert ⟨false, false⟩ [] 0 [("a", JSVal.num 1), ("b", JSVal.undef)] [] =
      (.ok ⟨[("a", some (tvNumber 1))]⟩, []) := by
  refine ⟨?_, ?_, rfl⟩
  · intro cfg seen id own inh inh'
    rw [convert, convert, convertLoop_inh cfg own (List.insert id seen) inh inh']
  · intro cfg seen id own inh
    rw [convert, convert, convertLoop_filter_undefined cfg own (List.insert id seen) inh]

/-- C6: an `Undefined` element inside a list is not filtered: `encodeValue_`
throws the `UnsupportedType` string "Value of type undefined not recognized."
(the source message carries the trailing period), and encoding
`{a: [1, undefined]}` aborts the whole conversion with that error. -/
theorem undefined_in_list_fails (cfg : ObjectToStructConverter) (seen : Seen) :
    encodeValue cfg seen JSVal.undef =
      (.error (.unsupportedType undefinedMsg), seen) ∧
    convert cfg [] 0 [("a", JSVal.arr [JSVal.num 1, JSVal.undef])] [] =
      (.error (.unsupportedType undefinedMsg), [0]) :=
  ⟨rfl, rfl⟩

/-- C7: `encodeValue_` tags every recognized kind deterministically with
exactly one populated variant — `null` to `nullValue` (payload `0`),
booleans to `boolValue`, numbers to `numberValue`, strings to `stringValue`,
buffers to `blobValue` with the bytes unchanged, and arrays to
`listValue.values` holding the elements encoded recursively, in order
(pointwise from the same seen-set, which a successful element encoding
always restores). -/
theorem deterministic_tagging (cfg : ObjectToStructConverter) (seen : Seen) :
    (encodeValue cfg seen JSVal.null = (.ok (some tvNull), seen) ∧
      tvNull.nullValue = some 0 ∧ populatedCount tvNull = 1) ∧
    (∀ b : Bool, encodeValue cfg seen (JSVal.bool b) = (.ok (some (tvBool b)), seen) ∧
      (tvBool b).boolValue = some b ∧ populatedCount (tvBool b) = 1) ∧
    (∀ n : Int, encodeValue cfg seen (JSVal.num n) = (.ok (some (tvNumber n)), seen) ∧
      (tvNumber n).numberValue = some n ∧ populatedCount (tvNumber n) = 1) ∧
    (∀ s : String, encodeValue cfg seen (JSVal.str s) = (.ok (some (tvString s)), seen) ∧
      (tvString s).stringValue = some s ∧ populatedCount (tvString s) = 1) ∧
    (∀ bs : List Nat, encodeValue cfg seen (JSVal.buffer bs) = (.ok (some (tvBlob bs)), seen) ∧
      (tvBlob bs).blobValue = some bs ∧ populatedCount (tvBlob bs) = 1) ∧
    (∀ (elems : List JSVal) (vs : List (Option TV)) (s : Seen),
      encodeList cfg seen elems = (.ok vs, s) →
        s = seen ∧
        encodeValue cfg seen (JSVal.arr elems) = (.ok (some (tvList vs)), seen) ∧
        populatedCount (tvList vs) = 1 ∧
        vs.length = elems.length ∧
        ∀ i (hi : i < elems.length) (hi' : i < vs.length),
          encodeValue cfg seen (elems.get ⟨i, hi⟩) = (.ok (vs.get ⟨i, hi'⟩), seen)) := by
  refine ⟨⟨rfl, rfl, rfl⟩, fun b => ⟨rfl, rfl, rfl⟩, fun n => ⟨rfl, rfl, rfl⟩,
    fun s => ⟨rfl, rfl, rfl⟩, fun bs => ⟨rfl, rfl, rfl⟩, ?_⟩
  intro elems vs s h
  have hs : s = seen := encodeList_ok_restores cfg seen elems vs s h
  rw [hs] at h
  obtain ⟨hlen, hpt⟩ := encodeList_ok_pointwise cfg seen elems vs seen h
  refine ⟨hs, ?_, rfl, hlen, hpt⟩
  rw [encodeValue, h]

/-- C7 (witness): the array `[7, "x"]` encodes elementwise in order into a
`listValue` with exactly one populated variant. -/
theorem deterministic_tagging_witness :
    encodeValue ⟨false, false⟩ [] (JSVal.arr [JSVal.num 7, JSVal.str "x"]) =
      (.ok (some (tvList [some (tvNumber 7), some (tvString "x")])), []) ∧
    populatedCount (tvList [some (tvNumber 7), some (tvString "x")]) = 1 := by
  have h := (deterministic_tagging ⟨false, false⟩ []).2.2.2.2.2
    [JSVal.num 7, JSVal.str "x"] [some (tvNumber 7), some (tvString "x")] [] rfl
  exact ⟨h.2.1, h.2.2.1⟩

/-- C8: `decodeValue` dispatches on the tag (the `kind` discriminator):
`structValue` decodes recursively via `structToObj`, `nullValue` yields
`null`, `listValue` yields the ordered sequence of decoded elements, and any
other tag yields its raw payload as-is — whatever the remaining properties
hold.  In particular the spec's nested-struct and list examples decode to
`{p: {q: 5}}` and `["a", null]`. -/
theorem decode_dispatch :
    (∀ (nv : Option Int) (bv : Option Bool) (numv : Option Int) (sv : Option String)
        (blobv : Option (List Nat)) (lv : Option (List (Option TV)))
        (fs : List (String × Option TV)),
      decodeValue (some (.mk (some "structValue") nv bv numv sv blobv lv (some fs))) =
        structToObj fs) ∧
    (∀ (nv : Option Int) (bv : Option Bool) (numv : Option Int) (sv : Option String)
        (blobv : Option (List Nat)) (lv : Option (List (Option TV)))
        (stv : Option (List (String × Option TV))),
      decodeValue (some (.mk (some "nullValue") nv bv numv sv blobv lv stv)) =
        .ok .null) ∧
    (∀ (nv : Option Int) (bv : Option Bool) (numv : Option Int) (sv : Option String)
        (blobv : Option (List Nat)) (stv : Option (List (String × Option TV)))
        (vs : List (Option TV)) (elems : List JSVal),
      decodeList vs = .ok elems →
        decodeValue (some (.mk (some "listValue") nv bv numv sv blobv (some vs) stv)) =
          .ok (.arr elems) ∧
        elems.length = vs.length ∧
        ∀ i (hi : i < vs.length) (hi' : i < elems.length),
          decodeValue (vs.get ⟨i, hi⟩) = .ok (elems.get ⟨i, hi'⟩)) ∧
    (∀ (nv : Option Int) (numv : Option Int) (sv : Option String)
        (blobv : Option (List Nat)) (lv : Option (List (Option TV)))
        (stv : Option (List (String × Option TV))) (b : Bool),
      decodeValue (some (.mk (some "boolValue") nv (some b) numv sv blobv lv stv)) =
        .ok (.bool b)) ∧
    (∀ (nv : Option Int) (bv : Option Bool) (sv : Option String)
        (blobv : Option (List Nat)) (lv : Option (List (Option TV)))
        (stv : Option (List (String × Option TV))) (n : Int),
      decodeValue (some (.mk (some "numberValue") nv bv (some n) sv blobv lv stv)) =
        .ok (.num n)) ∧
    (∀ (nv : Option Int) (bv : Option Bool) (numv : Option Int)
        (blobv : Option (List Nat)) (lv : Option (List (Option TV)))
        (stv : Option (List (String × Option TV))) (s : String),
      decodeValue (some (.mk (some "stringValue") nv bv numv (some s) blobv lv stv)) =
        .ok (.str s)) ∧
    (∀ (nv : Option Int) (bv : Option Bool) (numv : Option Int) (sv : Option String)
        (lv : Option (List (Option TV)))
        (stv : Option (List (String × Option TV))) (bs : List Nat),
      decodeValue (some (.mk (some "blobValue") nv bv numv sv (some bs) lv stv)) =
        .ok (.buffer bs)) ∧
    structToObj [("p", some (.mk (some "structValue") none none none none none none
        (some [("q", some (.mk (some "numberValue") none none (some 5)
          none none none none))])))] =
      .ok (.obj 0 .objectProto
        [("p", .obj 0 .objectProto [("q", JSVal.num 5)] [] "[object Object]")] []
        "[object Object]") ∧
    decodeValue (some (.mk (some "listValue") none none none none none
        (some [some (.mk (some "stringValue") none none none (some "a") none none none),
               some (.mk (some "nullValue") (some 0) none none none none none none)])
        none)) =
      .ok (.arr [JSVal.str "a", JSVal.null]) := by
  refine ⟨fun nv bv numv sv blobv lv fs =>
      decodeValue_structValue_eq_structToObj nv bv numv sv blobv lv fs,
    fun _ _ _ _ _ _ _ => rfl, ?_,
    fun _ _ _ _ _ _ b => rfl, fun _ _ _ _ _ _ n => rfl,
    fun _ _ _ _ _ _ s => rfl, fun _ _ _ _ _ _ bs => rfl, rfl, rfl⟩
  intro nv bv numv sv blobv stv vs elems h
  obtain ⟨hlen, hpt⟩ := decodeList_ok_pointwise vs elems h
  refine ⟨?_, hlen, hpt⟩
  rw [decodeValue_listValue, h]

/-- C8 (witness): decoding a kind-tagged singleton list `["a"]`. -/
theorem decode_dispatch_witness :
    decodeValue (some (.mk (some "listValue") none none none none none
        (some [some (.mk (some "stringValue") none none none (some "a")
          none none none)]) none)) =
      .ok (.arr [JSVal.str "a"]) :=
  (decode_dispatch.2.2.1 none none none none none none
    [some (.mk (some "stringValue") none none none (some "a") none none none)]
    [JSVal.str "a"] rfl).1

/-- C9: `isPlainObject` is deterministic per value identity and memoized in
the identity-keyed cache: whatever a call returned, an immediate repeat with
the same identity returns the same boolean and leaves the cache untouched
(a pure cache hit — the classification is computed at most once per
identity), the answer is recorded under that identity, and entries of other
identities are unaffected. -/
theorem isPlainObject_memoized (c : PCache) (id : Nat) (p : Proto) (b : Bool)
    (c' : PCache) (h : isPlainObject c id p = (b, c')) :
    isPlainObject c' id p = (b, c') ∧
    cacheGet c' id = some b ∧
    ∀ j, j ≠ id → cacheGet c' j = cacheGet c j := by
  rw [isPlainObject.eq_def] at h
  cases hcg : cacheGet c id with
  | some b0 =>
    rw [hcg] at h
    injection h with h1 h2
    subst h1
    subst h2
    refine ⟨?_, hcg, fun j hj => rfl⟩
    rw [isPlainObject.eq_def, hcg]
  | none =>
    rw [hcg] at h
    have hc' : c' = (id, b) :: c := by
      cases p with
      | nullProto =>
        injection h with h1 h2
        subst h1
        exact h2.symm
      | objectProto =>
        injection h with h1 h2
        subst h1
        exact h2.symm
      | custom hasCtor ctorIsFunc ctorInstSelf ctorToStrFunc =>
        dsimp only at h
        by_cases hcond : (hasCtor && (ctorIsFunc && ctorInstSelf && ctorToStrFunc)) = true
        · rw [if_pos hcond] at h
          injection h with h1 h2
          subst h1
          exact h2.symm
        · rw [if_neg hcond] at h
          injection h with h1 h2
          subst h1
          exact h2.symm
    subst hc'
    have hget : cacheGet ((id, b) :: c) id = some b := by
      rw [cacheGet, if_pos rfl]
    refine ⟨?_, hget, ?_⟩
    · rw [isPlainObject.eq_def, hget]
    · intro j hj
      rw [cacheGet, if_neg (fun hh => hj hh.symm)]

/-- C9 (witness): a fresh classification of identity `0` with prototype
`Object.prototype` caches `true`, and the repeat call is a cache hit. -/
theorem isPlainObject_memoized_witness :
    isPlainObject [(0, true)] 0 .objectProto = (true, [(0, true)]) ∧
    cacheGet [(0, true)] 0 = some true := by
  have h := isPlainObject_memoized [] 0 .objectProto true [(0, true)] rfl
  exact ⟨h.1, h.2.1⟩

/-- C10: a value whose `typeof` is `"function"`, `"symbol"` or `"bigint"`
matches no case of either `switch` in `encodeValue_`: the function neither
throws nor produces a tagged value — it falls off the end and returns
JavaScript `undefined` (`.ok none`) — and `convert` on an object with such a
field silently stores `undefined` under that key instead of failing with
`UnsupportedType`. -/
theorem unrecognized_typeof_encodes_to_undefined (cfg : ObjectToStructConverter)
    (seen : Seen) :
    (∀ strForm, encodeValue cfg seen (JSVal.fn strForm) = (.ok none, seen)) ∧
    encodeValue cfg seen JSVal.sym = (.ok none, seen) ∧
    (∀ n : Int, encodeValue cfg seen (JSVal.bigint n) = (.ok none, seen)) ∧
    convert cfg [] 0 [("f", JSVal.fn "function f()")] [] =
      (.ok ⟨[("f", none)]⟩, []) :=
  ⟨fun _ => rfl, rfl, fun _ => rfl, rfl⟩
